import Mathlib

/-!
Verification development for the mufx-site repository.

Part 1 embeds `src/tools/fetch_prices.py` (the instrument catalog and the
`fetch_all` price-retrieval pipeline).  Part 2 embeds `src/verify.py` (the
publication-integrity checker).

Modelling conventions:
* Python/numpy floats are modelled as exact rationals (`ℚ`) extended with
  the IEEE specials the pipeline can produce (`PyFloat`: finite, +inf,
  -inf, nan).  The closes themselves are finite; the percent change is a
  numpy float64, and numpy division by zero does NOT raise — it yields
  ±inf (or nan for 0/0) with a RuntimeWarning — so the division result is
  a `PyFloat` that propagates through `round`, the `%.2f` formatting and
  the IEEE comparisons (every comparison with nan is false).  Python's
  `round(x, n)` (round-half-even) is modelled exactly on the finite part.
* The external yfinance provider is an abstract environment: the batch
  download is a map from ticker to an optional close series (`none` models
  the `KeyError`/`TypeError` raised when `data["Close"][ticker]` cannot be
  extracted), and the per-ticker fallback `yf.Ticker(t).history` is a map
  from ticker to a series or a raised exception (`Except`).
* A close series is a list of (date, optional close) pairs in the order the
  provider returns them; `dropna` removes the missing values.
-/

set_option maxRecDepth 2000

namespace MufxSite

/-! ## Part 1: src/tools/fetch_prices.py -/

/-- One entry of the `INSTRUMENTS` map: display name, provider ticker,
display decimals, grouping category, optional note. -/
structure InstrumentSpec where
  name : String
  ticker : String
  decimals : Nat
  category : String
  note : Option String := none
deriving DecidableEq

/-- The `INSTRUMENTS` catalog, in source (dict-insertion) order. -/
def INSTRUMENTS : List InstrumentSpec := [
  ⟨"DXY",     "DX-Y.NYB", 2, "primary", none⟩,
  ⟨"EUR/USD", "EURUSD=X", 4, "primary", none⟩,
  ⟨"XAU/USD", "GC=F",     0, "primary", some "Gold futures front month"⟩,
  ⟨"USD/JPY", "JPY=X",    2, "primary", none⟩,
  ⟨"GBP/USD", "GBPUSD=X", 4, "secondary", none⟩,
  ⟨"AUD/USD", "AUDUSD=X", 4, "secondary", none⟩,
  ⟨"USD/CHF", "CHF=X",    4, "secondary", none⟩,
  ⟨"US10Y",   "^TNX",     3, "secondary", some "10Y yield, divide by 1 (already %)"⟩,
  ⟨"Brent",   "BZ=F",     2, "secondary", some "Brent front month"⟩,
  ⟨"S&P500",  "^GSPC",    2, "supplementary", none⟩,
  ⟨"VIX",     "^VIX",     2, "supplementary", none⟩,
  ⟨"BTC/USD", "BTC-USD",  0, "supplementary", none⟩]

/-- A Python/numpy float value as the pipeline can produce it: an exact
finite value, or one of the IEEE specials that numpy division by zero
yields (`+inf`, `-inf`, `nan`). -/
inductive PyFloat where
  | finite (q : ℚ)
  | inf
  | negInf
  | nan
deriving DecidableEq

/-- IEEE absolute value: `abs(±inf) = inf`, `abs(nan) = nan`. -/
def pyAbs : PyFloat → PyFloat
  | .finite q => .finite |q|
  | .inf => .inf
  | .negInf => .inf
  | .nan => .nan

/-- IEEE `<`: every comparison involving nan is false; `-inf` is below and
`+inf` above every finite value. -/
def pyLt : PyFloat → PyFloat → Bool
  | .finite a, .finite b => decide (a < b)
  | .finite _, .inf => true
  | .finite _, .negInf => false
  | .finite _, .nan => false
  | .inf, _ => false
  | .negInf, .negInf => false
  | .negInf, .nan => false
  | .negInf, .finite _ => true
  | .negInf, .inf => true
  | .nan, _ => false

/-- IEEE `≤`: every comparison involving nan is false. -/
def pyLe : PyFloat → PyFloat → Bool
  | .finite a, .finite b => decide (a ≤ b)
  | .finite _, .inf => true
  | .finite _, .negInf => false
  | .finite _, .nan => false
  | .inf, .inf => true
  | .inf, _ => false
  | .negInf, .nan => false
  | .negInf, _ => true
  | .nan, _ => false

/-- numpy float64 division of finite operands: division by zero yields
`+inf`, `-inf`, or `nan` for `0/0` (a RuntimeWarning, not an exception). -/
def pyDiv (a b : ℚ) : PyFloat :=
  if b = 0 then
    if 0 < a then .inf else if a < 0 then .negInf else .nan
  else .finite (a / b)

/-- numpy float multiplication by a finite constant (`inf * 0 = nan`). -/
def pyScale : PyFloat → ℚ → PyFloat
  | .finite q, c => .finite (q * c)
  | .inf, c => if 0 < c then .inf else if c < 0 then .negInf else .nan
  | .negInf, c => if 0 < c then .negInf else if c < 0 then .inf else .nan
  | .nan, _ => .nan

/-- The per-instrument result value: the success dict (price, prev_close,
change_pct, change_str, direction, arrow, category, date) or an error dict.
`change_pct` is a Python float that is non-finite when `previous == 0`
(numpy division).  The `"Insufficient data"` error dict in the source
carries no category key, while the generic exception path does; hence
`category : Option String` in the failure case. -/
inductive Record where
  | obs (price prev_close : ℚ) (change_pct : PyFloat)
        (change_str direction arrow category date : String)
  | failure (error : String) (category : Option String)
deriving DecidableEq

/-- The `category` key of a result dict, when present. -/
def recordCategory : Record → Option String
  | .obs _ _ _ _ _ _ c _ => some c
  | .failure _ c => c

/-- A Python class for the `isinstance` model: a class id together with its
method-resolution-order (list of ids of itself and its superclasses).
In Python every class appears in its own MRO. -/
structure PyClass where
  id : Nat
  mro : List Nat
  self_mem : id ∈ mro

/-- `isinstance(x, T)` where `objCls` is `type(x)`: membership of the target
class in the object's class's superclass chain. -/
def isinstance (objCls target : PyClass) : Bool :=
  decide (target.id ∈ objCls.mro)

/-- Line 70 of fetch_prices.py:
`close_col = ("Close", ticker) if isinstance(data.columns, type(data.columns)) else "Close"`.
`Sum.inr` is the tuple branch, `Sum.inl` the plain-string branch. -/
def close_col (columnsCls : PyClass) (ticker : String) : String ⊕ (String × String) :=
  if isinstance columnsCls columnsCls then Sum.inr ("Close", ticker) else Sum.inl "Close"

/-- A provider close series: (date, close-or-NaN) pairs in provider order. -/
abbrev Series := List (String × Option ℚ)

/-- `.dropna()`: keep only the entries with a reported close. -/
def dropna (s : Series) : List (String × ℚ) :=
  s.filterMap fun p => p.2.map fun v => (p.1, v)

/-- The external provider, abstracted.
`batch t` is the extraction `data["Close"][t]` from the one batched
download: `none` models the `KeyError`/`TypeError` the source catches.
`single t` is the fallback `yf.Ticker(t).history(period="5d")["Close"]`:
`Except.error` models an exception raised by the fallback call, which the
source's outer handler catches.  `columnsCls` is `type(data.columns)`. -/
structure Env where
  batch : String → Option Series
  single : String → Except String Series
  columnsCls : PyClass

/-- Floor of a rational as an integer (computably: floor division of the
numerator by the denominator). -/
def ratFloor (q : ℚ) : ℤ :=
  q.num.fdiv (q.den : ℤ)

/-- Round-half-even on ℚ to an integer, the rounding Python's `round` and
`"%.2f"` formatting use. -/
def bankRound (q : ℚ) : ℤ :=
  let f := ratFloor q
  let r := q - f
  if r < 1/2 then f
  else if 1/2 < r then f + 1
  else if f % 2 = 0 then f else f + 1

/-- Python `round(x, n)`: round-half-even to `n` fractional digits. -/
def pyRound (n : Nat) (q : ℚ) : ℚ :=
  (bankRound (q * 10 ^ n) : ℚ) / 10 ^ n

/-- Left-pad the fractional hundredths to two digits. -/
def pad2 (a : Nat) : String :=
  if a < 10 then "0" ++ toString a else toString a

/-- Python `f"{q:.2f}"` on our exact rationals: round-half-even to
hundredths, then print with a sign taken from the unrounded value
(Python prints `-0.00` for tiny negatives). -/
def fmtFixed2 (q : ℚ) : String :=
  let m := bankRound (q * 100)
  let sign := if q < 0 then "-" else ""
  let a := m.natAbs
  sign ++ toString (a / 100) ++ "." ++ pad2 (a % 100)

/-- Line 102: `f"{'+' if change_pct >= 0 else ''}{change_pct:.2f}%"`. -/
def change_str (q : ℚ) : String :=
  (if 0 ≤ q then "+" else "") ++ fmtFixed2 q ++ "%"

/-- Lines 88–96 restricted to finite change values (it agrees with
`classifyF` on finite inputs, lemma `classifyF_finite`). -/
def classify (change_pct : ℚ) : String × String :=
  if |change_pct| < 1/100 then ("flat", "●")
  else if 0 < change_pct then ("up", "▲")
  else ("down", "▼")

/-- Python `round(x, n)` on a float: non-finite values pass through
(`round(inf, 2) = inf`, `round(nan, 2) = nan`). -/
def pyRoundF (n : Nat) : PyFloat → PyFloat
  | .finite q => .finite (pyRound n q)
  | x => x

/-- Python `f"{x:.2f}"` on a float: prints `inf`, `-inf`, `nan` for the
non-finite values. -/
def fmtFixed2F : PyFloat → String
  | .finite q => fmtFixed2 q
  | .inf => "inf"
  | .negInf => "-inf"
  | .nan => "nan"

/-- Line 102 over float semantics: the `change_pct >= 0` test is an IEEE
comparison (false for nan and `-inf`), so `+inf` prints as `"+inf%"`. -/
def change_strF (x : PyFloat) : String :=
  (if pyLe (.finite 0) x then "+" else "") ++ fmtFixed2F x ++ "%"

/-- Lines 88–96 over float semantics: `abs` and the comparisons follow
IEEE (comparisons with nan are false), so `+inf` classifies "up" and
`-inf` / nan classify "down". -/
def classifyF (change_pct : PyFloat) : String × String :=
  if pyLt (pyAbs change_pct) (.finite (1/100)) then ("flat", "●")
  else if pyLt (.finite 0) change_pct then ("up", "▲")
  else ("down", "▼")

/-- Lines 79–107: from the resolved (already `dropna`-ed) close series,
build the per-instrument result dict.  The source's `len(closes) < 2`
check is the wildcard branch of the match on the reversed series.  The
operands of the division are numpy float64 scalars, so when
`previous == 0` the division does NOT raise: it yields ±inf (or nan for
0/0), which propagates through rounding, formatting and classification
into a success dict. -/
def mkRecord (spec : InstrumentSpec) (closes : List (String × ℚ)) : Record :=
  match closes.reverse with
  | (dcur, current) :: (_, previous) :: _ =>
    let change_pct := pyScale (pyDiv (current - previous) previous) 100
    let da := classifyF change_pct
    .obs (pyRound spec.decimals current) (pyRound spec.decimals previous)
         (pyRoundF 2 change_pct) (change_strF change_pct)
         da.1 da.2 spec.category dcur
  | _ => .failure "Insufficient data" none

/-- Lines 68–110, one loop iteration: resolve the close series (batch
extraction, with the per-instrument fallback on extraction failure), then
build the record.  The Boolean is instrumentation: `true` iff the
individual fallback query was issued for this instrument.  The unused
`close_col` binding mirrors line 70 of the source. -/
def fetchOneT (env : Env) (spec : InstrumentSpec) : Record × Bool :=
  let _cc := close_col env.columnsCls spec.ticker
  match env.batch spec.ticker with
  | some s => (mkRecord spec (dropna s), false)
  | none =>
    match env.single spec.ticker with
    | .ok s => (mkRecord spec (dropna s), true)
    | .error e => (.failure e (some spec.category), true)

/-- The record `fetch_all` stores for one instrument. -/
def fetchOne (env : Env) (spec : InstrumentSpec) : Record :=
  (fetchOneT env spec).1

/-- `fetch_all`'s loop over an arbitrary catalog: the ordered mapping from
instrument name to record (the source's insertion-ordered `results` dict). -/
def fetchAllOver (env : Env) (catalog : List InstrumentSpec) : List (String × Record) :=
  catalog.map fun spec => (spec.name, fetchOne env spec)

/-- Lines 49–112: `fetch_all()`, iterating the `INSTRUMENTS` catalog. -/
def fetch_all (env : Env) : List (String × Record) :=
  fetchAllOver env INSTRUMENTS

/-- A PyClass for concrete environments (a pandas Index class stand-in). -/
def pyClass0 : PyClass := ⟨0, [0], by simp⟩

/-! ### Concrete specs and environments used by witnesses and counterexamples -/

/-- The single-instrument catalog entry of the spec's end-to-end scenario. -/
def specA : InstrumentSpec := ⟨"A", "A-T", 2, "primary", none⟩

/-- A second concrete entry, for the fallback-isolation scenario. -/
def specB : InstrumentSpec := ⟨"B", "B-T", 2, "secondary", none⟩

/-- Environment for the end-to-end scenario: the batch download has the
series [100, 102] (oldest to newest) for every ticker. -/
def envA : Env :=
  ⟨fun _ => some [("2026-02-26", some 100), ("2026-02-27", some 102)],
   fun _ => .error "unused", pyClass0⟩

/-- Environment where the previous close is 0 and the current close is 5. -/
def envZero : Env :=
  ⟨fun _ => some [("2026-02-26", some 0), ("2026-02-27", some 5)],
   fun _ => .error "unused", pyClass0⟩

/-- Environment whose batch result has a one-element series. -/
def envShort : Env :=
  ⟨fun _ => some [("2026-02-27", some 1)], fun _ => .error "unused", pyClass0⟩

/-- Environment whose batch extraction succeeds with an empty series while
the individual query would return a perfectly usable two-point series. -/
def envEmptySeries : Env :=
  ⟨fun _ => some [],
   fun _ => .ok [("2026-02-26", some 100), ("2026-02-27", some 102)], pyClass0⟩

/-- Environment where batch extraction fails for every ticker and the
individual query succeeds. -/
def envFb : Env :=
  ⟨fun _ => none,
   fun _ => .ok [("2026-02-26", some 100), ("2026-02-27", some 102)], pyClass0⟩

/-- Environment where batch extraction fails exactly for ticker "B-T". -/
def envIso : Env :=
  ⟨fun s => if s = "B-T" then none
            else some [("2026-02-26", some 100), ("2026-02-27", some 102)],
   fun _ => .ok [("2026-02-26", some 7), ("2026-02-27", some 9)], pyClass0⟩

/-- Environment whose batch extraction fails and whose fallback raises. -/
def envErr : Env := ⟨fun _ => none, fun _ => .error "HTTPError", pyClass0⟩

/-! ### Helper lemmas about the pipeline -/

lemma ratFloor_eq (q : ℚ) : ratFloor q = ⌊q⌋ := by
  rw [ratFloor, Rat.floor_def, Int.fdiv_eq_ediv _ (Int.natCast_nonneg q.den)]

lemma bankRound_eq (q : ℚ) (f : ℤ) (h1 : (f : ℚ) ≤ q) (h2 : q < f + 1) :
    bankRound q =
      if q - f < 1/2 then f
      else if 1/2 < q - f then f + 1
      else if f % 2 = 0 then f else f + 1 := by
  have hf : ratFloor q = f := by
    rw [ratFloor_eq]
    exact Int.floor_eq_iff.mpr ⟨h1, h2⟩
  simp only [bankRound, hf]

lemma fetchOneT_batch (env : Env) (spec : InstrumentSpec) (s : Series)
    (hb : env.batch spec.ticker = some s) :
    fetchOneT env spec = (mkRecord spec (dropna s), false) := by
  simp [fetchOneT, hb]

lemma fetchOneT_fallback_ok (env : Env) (spec : InstrumentSpec) (s : Series)
    (hb : env.batch spec.ticker = none) (hs : env.single spec.ticker = .ok s) :
    fetchOneT env spec = (mkRecord spec (dropna s), true) := by
  simp [fetchOneT, hb, hs]

lemma fetchOneT_fallback_err (env : Env) (spec : InstrumentSpec) (e : String)
    (hb : env.batch spec.ticker = none) (hs : env.single spec.ticker = .error e) :
    fetchOneT env spec = (.failure e (some spec.category), true) := by
  simp [fetchOneT, hb, hs]

lemma snd_fetchOneT (env : Env) (spec : InstrumentSpec) :
    (fetchOneT env spec).2 = (env.batch spec.ticker).isNone := by
  rcases hb : env.batch spec.ticker with _ | s
  · rcases hs : env.single spec.ticker with e | s <;> simp [fetchOneT, hb, hs]
  · simp [fetchOneT, hb]

lemma pyDiv_finite (a b : ℚ) (hb : b ≠ 0) : pyDiv a b = .finite (a / b) := by
  simp [pyDiv, hb]

lemma classifyF_finite (q : ℚ) : classifyF (.finite q) = classify q := by
  simp only [classifyF, classify, pyAbs, pyLt, decide_eq_true_eq]

lemma change_strF_finite (q : ℚ) : change_strF (.finite q) = change_str q := by
  simp only [change_strF, change_str, fmtFixed2F, pyLe, decide_eq_true_eq]

lemma mkRecord_obs (spec : InstrumentSpec) (closes : List (String × ℚ))
    (d1 d2 : String) (c p : ℚ) (rest : List (String × ℚ))
    (hr : closes.reverse = (d1, c) :: (d2, p) :: rest) (hp : p ≠ 0) :
    mkRecord spec closes =
      .obs (pyRound spec.decimals c) (pyRound spec.decimals p)
           (.finite (pyRound 2 ((c - p) / p * 100))) (change_str ((c - p) / p * 100))
           (classify ((c - p) / p * 100)).1 (classify ((c - p) / p * 100)).2
           spec.category d1 := by
  have hdiv : pyScale (pyDiv (c - p) p) 100 = .finite ((c - p) / p * 100) := by
    rw [pyDiv_finite (c - p) p hp]; rfl
  simp [mkRecord, hr, hdiv, pyRoundF, classifyF_finite, change_strF_finite]

lemma recordCategory_mkRecord (spec : InstrumentSpec) (closes : List (String × ℚ)) :
    recordCategory (mkRecord spec closes) = some spec.category ∨
    mkRecord spec closes = .failure "Insufficient data" none := by
  rcases h : closes.reverse with _ | ⟨⟨d1, c⟩, _ | ⟨⟨d2, p⟩, rest⟩⟩
  · right; simp [mkRecord, h]
  · right; simp [mkRecord, h]
  · left; simp [mkRecord, h, recordCategory]

/-! ### Claim theorems -/

/-- C1: every run of `fetch_all` over the catalog returns one record per
catalog entry (a PriceObservation or a FailureRecord, never absent), keyed
by the instrument names in catalog iteration order, with no duplicates;
every entry's own record is present regardless of how any other entry
fares. -/
theorem fetch_all_complete_in_order (env : Env) :
    (fetch_all env).map Prod.fst = INSTRUMENTS.map InstrumentSpec.name ∧
    ((fetch_all env).map Prod.fst).Nodup ∧
    ∀ spec ∈ INSTRUMENTS, (spec.name, fetchOne env spec) ∈ fetch_all env := by
  have h1 : (fetch_all env).map Prod.fst = INSTRUMENTS.map InstrumentSpec.name := by
    simp [fetch_all, fetchAllOver]
  refine ⟨h1, ?_, ?_⟩
  · rw [h1]; decide
  · intro spec h
    exact List.mem_map_of_mem (fun spec => (spec.name, fetchOne env spec)) h

/-- C1 witness: at a concrete environment, the catalog head's record is
present in the result mapping. -/
theorem fetch_all_complete_in_order_witness :
    (("DXY" : String), fetchOne envErr ⟨"DXY", "DX-Y.NYB", 2, "primary", none⟩) ∈
      fetch_all envErr :=
  (fetch_all_complete_in_order envErr).2.2 ⟨"DXY", "DX-Y.NYB", 2, "primary", none⟩
    (by decide)

/-- C2: the direction stored by the pipeline (`classify` of the unrounded
percent change, lines 88–96) is "flat" iff the absolute percent change is
below 0.01; otherwise it is "up" iff the change is positive and "down"
otherwise; the three outcomes are exhaustive and mutually exclusive by
these characterizations. -/
theorem direction_classification (q : ℚ) :
    ((classify q).1 = "flat" ↔ |q| < 1/100) ∧
    ((classify q).1 = "up" ↔ ¬|q| < 1/100 ∧ 0 < q) ∧
    ((classify q).1 = "down" ↔ ¬|q| < 1/100 ∧ ¬0 < q) ∧
    ((classify q).1 = "flat" ∨ (classify q).1 = "up" ∨ (classify q).1 = "down") := by
  by_cases h1 : |q| < 1/100
  · simp only [classify]
    rw [if_pos h1]
    exact ⟨iff_of_true rfl h1,
           iff_of_false (by decide) (fun h => h.1 h1),
           iff_of_false (by decide) (fun h => h.1 h1),
           Or.inl rfl⟩
  · by_cases h2 : 0 < q
    · simp only [classify]
      rw [if_neg h1, if_pos h2]
      exact ⟨iff_of_false (by decide) h1,
             iff_of_true rfl ⟨h1, h2⟩,
             iff_of_false (by decide) (fun h => h.2 h2),
             Or.inr (Or.inl rfl)⟩
    · simp only [classify]
      rw [if_neg h1, if_neg h2]
      exact ⟨iff_of_false (by decide) h1,
             iff_of_false (by decide) (fun h => h2 h.2),
             iff_of_true rfl ⟨h1, h2⟩,
             Or.inr (Or.inr rfl)⟩

/-- C2 witness: a 2% change classifies as "up". -/
theorem direction_classification_witness : (classify (2 : ℚ)).1 = "up" :=
  (direction_classification 2).2.1.mpr ⟨by norm_num, by norm_num⟩

/-- C3 (code_bug evidence): at the claim's own failing input — previous
close 0, current close 5 — the program does NOT record a FailureRecord.
The division operands are numpy float64 scalars, so `(5 - 0) / 0` yields
`+inf` without raising; the `except Exception` handler never fires, and
the pipeline stores a success dict with `change_pct = inf`, direction
"up" and `change_str = "+inf%"` — exactly the infinite-changePct
PriceObservation the claim (and the spec's guard policy) says never
appears. -/
theorem zero_previous_propagates_inf :
    fetchOne envZero specA =
      .obs 5 0 .inf "+inf%" "up" "▲" "primary" "2026-02-27" ∧
    ∀ e cat, fetchOne envZero specA ≠ .failure e cat := by
  have h : fetchOne envZero specA =
      .obs 5 0 .inf "+inf%" "up" "▲" "primary" "2026-02-27" := by
    rw [fetchOne,
        fetchOneT_batch envZero specA [("2026-02-26", some 0), ("2026-02-27", some 5)] rfl]
    have hr : (dropna [("2026-02-26", some 0), ("2026-02-27", some 5)]).reverse =
        [("2026-02-27", (5 : ℚ)), ("2026-02-26", (0 : ℚ))] := rfl
    dsimp only
    simp only [mkRecord, hr]
    rw [show pyScale (pyDiv ((5 : ℚ) - 0) 0) 100 = PyFloat.inf from by
          with_unfolding_all decide,
        show classifyF PyFloat.inf = ("up", "▲") from rfl,
        show pyRoundF 2 PyFloat.inf = PyFloat.inf from rfl,
        show change_strF PyFloat.inf = "+inf%" from by decide,
        show pyRound specA.decimals (5 : ℚ) = 5 from by with_unfolding_all decide,
        show pyRound specA.decimals (0 : ℚ) = 0 from by with_unfolding_all decide]
    rfl
  exact ⟨h, fun e cat hc => by rw [h] at hc; cases hc⟩

/-- C4 counterexample: a one-point series hits the `len(closes) < 2` path,
whose error dict (line 80) carries no category key at all, contradicting
the claim that every record carries the catalog category. -/
theorem insufficient_data_record_lacks_category :
    fetchOne envShort specA = .failure "Insufficient data" none ∧
    recordCategory (fetchOne envShort specA) ≠ some specA.category := by
  constructor <;> with_unfolding_all decide

/-- C4 amended: every record produced by `fetch_all` carries the category
copied from its catalog entry, except the length-check "Insufficient data"
FailureRecord, which carries no category. -/
theorem record_category_policy (env : Env) (spec : InstrumentSpec) :
    recordCategory (fetchOne env spec) = some spec.category ∨
    fetchOne env spec = .failure "Insufficient data" none := by
  rcases hb : env.batch spec.ticker with _ | s
  · rcases hs : env.single spec.ticker with e | s
    · left; rw [fetchOne, fetchOneT_fallback_err env spec e hb hs]; rfl
    · rw [fetchOne, fetchOneT_fallback_ok env spec s hb hs]
      exact recordCategory_mkRecord spec (dropna s)
  · rw [fetchOne, fetchOneT_batch env spec s hb]
    exact recordCategory_mkRecord spec (dropna s)

/-- C4 amended, witness: at a concrete environment whose fallback raises,
the failure record carries the category. -/
theorem record_category_policy_witness :
    recordCategory (fetchOne envErr specA) = some specA.category ∨
    fetchOne envErr specA = .failure "Insufficient data" none :=
  record_category_policy envErr specA

/-- C5 counterexample: batch extraction SUCCEEDS with an empty series; the
claim says this triggers the individual fallback query, but the code does
not issue it (flag `false`) and records "Insufficient data", ignoring the
usable series the individual query would have returned. -/
theorem empty_series_does_not_fall_back :
    envEmptySeries.batch specA.ticker = some [] ∧
    (fetchOneT envEmptySeries specA).2 = false ∧
    fetchOne envEmptySeries specA = .failure "Insufficient data" none :=
  ⟨rfl, rfl, rfl⟩

/-- C5 amended: the individual fallback query is issued exactly when batch
extraction fails (`KeyError`/`TypeError`, modelled as `none`) — an empty
extracted series does not trigger it; when the fallback is issued and
succeeds, its series replaces the batch-derived one before the length
check. -/
theorem fallback_exactly_on_extraction_failure (env : Env) (spec : InstrumentSpec) :
    ((fetchOneT env spec).2 = true ↔ env.batch spec.ticker = none) ∧
    (∀ s, env.batch spec.ticker = none → env.single spec.ticker = .ok s →
      fetchOne env spec = mkRecord spec (dropna s)) := by
  constructor
  · rw [snd_fetchOneT]
    exact Option.isNone_iff_eq_none
  · intro s hb hs
    rw [fetchOne, fetchOneT_fallback_ok env spec s hb hs]

/-- C5 witness: with failing batch extraction and a successful individual
query, the record is computed from the fallback series. -/
theorem fallback_exactly_on_extraction_failure_witness :
    fetchOne envFb specA =
      mkRecord specA (dropna [("2026-02-26", some 100), ("2026-02-27", some 102)]) :=
  (fallback_exactly_on_extraction_failure envFb specA).2
    [("2026-02-26", some 100), ("2026-02-27", some 102)] rfl rfl

/-- C6: the percent change is computed from the unrounded closes, and only
afterwards are the output fields independently rounded — closes to the
instrument's `decimals`, the percent change to 2 digits; concretely,
104.8276 rounds to 104.83 at 2 decimals, and a percent change of 0.0049
rounds to 0.00 while still classifying as flat. -/
theorem rounding_after_arithmetic (spec : InstrumentSpec)
    (closes : List (String × ℚ)) (d1 d2 : String) (c p : ℚ)
    (rest : List (String × ℚ))
    (hr : closes.reverse = (d1, c) :: (d2, p) :: rest) (hp : p ≠ 0) :
    mkRecord spec closes =
      .obs (pyRound spec.decimals c) (pyRound spec.decimals p)
           (.finite (pyRound 2 ((c - p) / p * 100))) (change_str ((c - p) / p * 100))
           (classify ((c - p) / p * 100)).1 (classify ((c - p) / p * 100)).2
           spec.category d1 ∧
    pyRound 2 (1048276/10000 : ℚ) = 10483/100 ∧
    pyRound 2 (49/10000 : ℚ) = 0 ∧
    (classify (49/10000 : ℚ)).1 = "flat" :=
  ⟨mkRecord_obs spec closes d1 d2 c p rest hr hp,
   by
    rw [pyRound, show (1048276/10000 : ℚ) * 10 ^ 2 = 262069/25 from by norm_num,
        bankRound_eq (262069/25) 10482 (by norm_num) (by norm_num),
        if_neg (by norm_num), if_pos (by norm_num)]
    norm_num,
   by with_unfolding_all decide,
   by with_unfolding_all decide⟩

/-- C6 witness: the characterization applied to the series
[100, 104.8276] at 2 decimals. -/
theorem rounding_after_arithmetic_witness :
    mkRecord specA [("2026-02-26", (100 : ℚ)), ("2026-02-27", (1048276/10000 : ℚ))] =
      .obs (pyRound specA.decimals (1048276/10000))
           (pyRound specA.decimals 100)
           (.finite (pyRound 2 ((1048276/10000 - 100) / 100 * 100)))
           (change_str ((1048276/10000 - 100) / 100 * 100))
           (classify ((1048276/10000 - 100) / 100 * 100)).1
           (classify ((1048276/10000 - 100) / 100 * 100)).2
           specA.category "2026-02-27" :=
  (rounding_after_arithmetic specA
    [("2026-02-26", (100 : ℚ)), ("2026-02-27", (1048276/10000 : ℚ))]
    "2026-02-27" "2026-02-26" (1048276/10000) 100 []
    rfl (by norm_num)).1

/-- C7: the end-to-end scenario — a 2-decimal instrument whose extracted
series is [100.00, 102.00] oldest-to-newest produces previous = 100.00,
current = 102.00, changePct = 2.00, direction = up, changeStr = "+2.00%".
-/
theorem end_to_end_scenario :
    fetchOne envA specA =
      .obs 102 100 (.finite 2) "+2.00%" "up" "▲" "primary" "2026-02-27" := by
  rw [fetchOne,
      fetchOneT_batch envA specA [("2026-02-26", some 100), ("2026-02-27", some 102)] rfl]
  have h2 := mkRecord_obs specA
    (dropna [("2026-02-26", some 100), ("2026-02-27", some 102)])
    "2026-02-27" "2026-02-26" 102 100 [] (by with_unfolding_all decide) (by norm_num)
  have e1 : ((102 : ℚ) - 100) / 100 * 100 = 2 := by norm_num
  rw [e1] at h2
  dsimp only
  rw [h2,
      show pyRound specA.decimals (102 : ℚ) = 102 from by with_unfolding_all decide,
      show pyRound specA.decimals (100 : ℚ) = 100 from by with_unfolding_all decide,
      show pyRound 2 (2 : ℚ) = 2 from by with_unfolding_all decide,
      show change_str (2 : ℚ) = "+2.00%" from by with_unfolding_all decide,
      show (classify (2 : ℚ)).1 = "up" from by with_unfolding_all decide,
      show (classify (2 : ℚ)).2 = "▲" from by with_unfolding_all decide]
  rfl

/-- C8: fallback isolation — when batch extraction fails for exactly the
entries with ticker `t`, only those issue the individual query; every other
entry's record is computed solely from the batch result (it is unchanged
under any replacement of the single-query provider), and any entry's record
depends only on the provider's responses for its own ticker, so one
instrument's failure cannot alter another's record. -/
theorem fallback_isolation (env : Env) (t : String) (catalog : List InstrumentSpec)
    (hfail : ∀ spec ∈ catalog, (env.batch spec.ticker = none ↔ spec.ticker = t)) :
    (∀ spec ∈ catalog, ((fetchOneT env spec).2 = true ↔ spec.ticker = t)) ∧
    (∀ spec ∈ catalog, spec.ticker ≠ t → ∀ sgl cls,
        fetchOne ⟨env.batch, sgl, cls⟩ spec = fetchOne env spec) ∧
    (∀ env' : Env, ∀ spec ∈ catalog,
        env'.batch spec.ticker = env.batch spec.ticker →
        env'.single spec.ticker = env.single spec.ticker →
        fetchOne env' spec = fetchOne env spec) := by
  refine ⟨?_, ?_, ?_⟩
  · intro spec h
    rw [snd_fetchOneT, Option.isNone_iff_eq_none]
    exact hfail spec h
  · intro spec h hne sgl cls
    rcases hb : env.batch spec.ticker with _ | s
    · exact absurd ((hfail spec h).mp hb) hne
    · rw [fetchOne, fetchOne, fetchOneT_batch env spec s hb,
          fetchOneT_batch ⟨env.batch, sgl, cls⟩ spec s hb]
  · intro env' spec _ hb hs
    rcases h : env.batch spec.ticker with _ | s
    · rcases h2 : env.single spec.ticker with e | s
      · rw [fetchOne, fetchOne, fetchOneT_fallback_err env spec e h h2,
            fetchOneT_fallback_err env' spec e (h ▸ hb) (h2 ▸ hs)]
      · rw [fetchOne, fetchOne, fetchOneT_fallback_ok env spec s h h2,
            fetchOneT_fallback_ok env' spec s (h ▸ hb) (h2 ▸ hs)]
    · rw [fetchOne, fetchOne, fetchOneT_batch env spec s h,
          fetchOneT_batch env' spec s (h ▸ hb)]

/-- C8 witness: in a 2-entry catalog where only ticker "B-T" fails batch
extraction, the "B" entry issues the individual query. -/
theorem fallback_isolation_witness :
    (fetchOneT envIso specB).2 = true :=
  ((fallback_isolation envIso "B-T" [specA, specB]
      (by decide)).1 specB (by decide)).mpr rfl

/-- C9: the `isinstance(data.columns, type(data.columns))` check on line 70
is true for every possible class of the batch response's columns, the
`close_col` value it selects is therefore always the tuple branch, that
value has no effect on the per-instrument result (which is invariant under
changing the columns class), and the actual batch/fallback discrimination
is the try/except: the fallback fires exactly when batch extraction fails.
-/
theorem shape_check_always_true :
    (∀ cls : PyClass, isinstance cls cls = true) ∧
    (∀ cls ticker, close_col cls ticker = Sum.inr ("Close", ticker)) ∧
    (∀ b s cls cls' spec,
        fetchOneT ⟨b, s, cls⟩ spec = fetchOneT ⟨b, s, cls'⟩ spec) ∧
    (∀ env spec, (fetchOneT env spec).2 = true ↔ env.batch spec.ticker = none) := by
  have h1 : ∀ cls : PyClass, isinstance cls cls = true := fun cls =>
    decide_eq_true cls.self_mem
  refine ⟨h1, fun cls ticker => ?_, fun b s cls cls' spec => rfl, fun env spec => ?_⟩
  · rw [close_col, if_pos (h1 cls)]
  · rw [snd_fetchOneT]
    exact Option.isNone_iff_eq_none

/-- C9 witness: `isinstance` of a concrete class against itself is true,
and `close_col` picks the tuple branch for it. -/
theorem shape_check_always_true_witness :
    close_col pyClass0 "DX-Y.NYB" = Sum.inr ("Close", "DX-Y.NYB") :=
  shape_check_always_true.2.1 pyClass0 "DX-Y.NYB"

/-! ## Part 2: src/verify.py

The verifier reads a file, extracts the first `<article …>…</article>`
body (`re.search`, DOTALL, lazy body), strips tags (`re.sub(r'<[^>]+>','')`),
collapses whitespace runs to single spaces and strips the ends, hashes the
result with SHA-256 and compares against the `data-hash="…"` attribute.
SHA-256 itself is the external `hashlib`; it enters as a parameter. -/

/-- ASCII whitespace as matched by the verifier's `\s` and `strip()`. -/
def isWs (c : Char) : Bool :=
  c = ' ' || c = '\t' || c = '\n' || c = '\r' || c = Char.ofNat 11 || c = Char.ofNat 12

/-- One pass of `re.sub(r'\s+', ' ', ·)`: `prevWs` is true while inside a
whitespace run that has already emitted its single replacement space. -/
def collapseWsAux (prevWs : Bool) : List Char → List Char
  | [] => []
  | c :: rest =>
    if isWs c then
      if prevWs then collapseWsAux true rest
      else ' ' :: collapseWsAux true rest
    else c :: collapseWsAux false rest

/-- `re.sub(r'\s+', ' ', ·)`: every whitespace run becomes one space. -/
def collapseWs (l : List Char) : List Char := collapseWsAux false l

/-- Leading-whitespace strip (half of Python's `str.strip`). -/
def lstrip (l : List Char) : List Char := l.dropWhile isWs

/-- Trailing-whitespace strip (the other half of `str.strip`). -/
def rstrip (l : List Char) : List Char := (l.reverse.dropWhile isWs).reverse

/-- Line 22: `re.sub(r'\s+', ' ', text).strip()`. -/
def normalizeText (l : List Char) : List Char := rstrip (lstrip (collapseWs l))

/-- Scan to just past the first `'>'`; `none` if there is none.  Used for
the `[^>]*>` tail of the `<article…>` opening tag, and (after one forced
non-`'>'` character) for the `[^>]+>` tail of a stripped tag. -/
def dropToGt : List Char → Option (List Char)
  | [] => none
  | c :: rest => if c = '>' then some rest else dropToGt rest

/-- After a `'<'`: match `[^>]+>` (at least one non-`'>'` character, then a
`'>'`), returning the remainder; `none` if the regex does not match here. -/
def tagTail : List Char → Option (List Char)
  | [] => none
  | c :: rest => if c = '>' then none else dropToGt rest

/-- Line 21, `re.sub(r'<[^>]+>', '', ·)`: delete every tag, scanning left
to right.  Each step consumes at least one character, so `l.length` is
enough fuel and the fuelled recursion is exact. -/
def stripTagsFuel : Nat → List Char → List Char
  | 0, _ => []
  | _ + 1, [] => []
  | n + 1, c :: rest =>
    if c = '<' then
      match tagTail rest with
      | some rest2 => stripTagsFuel n rest2
      | none => c :: stripTagsFuel n rest
    else c :: stripTagsFuel n rest

/-- `re.sub(r'<[^>]+>', '', ·)` on a character list. -/
def stripTags (l : List Char) : List Char := stripTagsFuel l.length l

/-- Match a literal character sequence, returning the remainder. -/
def matchLit : List Char → List Char → Option (List Char)
  | [], l => some l
  | _ :: _, [] => none
  | p :: ps, c :: cs => if c = p then matchLit ps cs else none

/-- The lazy `(.*?)` capture followed by a literal: the shortest prefix
such that the literal matches immediately after it; returns that prefix. -/
def captureUntil (lit : List Char) : List Char → Option (List Char)
  | [] => match matchLit lit [] with
          | some _ => some []
          | none => none
  | c :: cs =>
    match matchLit lit (c :: cs) with
    | some _ => some []
    | none => (captureUntil lit cs).map fun body => c :: body

/-- One anchored attempt of `<article[^>]*>(.*?)</article>` (DOTALL). -/
def matchArticleAt (l : List Char) : Option (List Char) :=
  (matchLit ("<article".toList) l).bind fun r1 =>
    (dropToGt r1).bind fun r2 =>
      captureUntil ("</article>".toList) r2

/-- Line 17: `re.search` of the article pattern — leftmost start wins. -/
def searchArticle : List Char → Option (List Char)
  | [] => none
  | c :: cs =>
    match matchArticleAt (c :: cs) with
    | some body => some body
    | none => searchArticle cs

/-- The `[a-f0-9]` class of the published-hash pattern. -/
def isHexLower (c : Char) : Bool :=
  ('a' ≤ c && c ≤ 'f') || ('0' ≤ c && c ≤ '9')

/-- Take exactly `n` lowercase-hex characters, returning them and the rest. -/
def takeHex : Nat → List Char → Option (List Char × List Char)
  | 0, l => some ([], l)
  | _ + 1, [] => none
  | n + 1, c :: cs =>
    if isHexLower c then (takeHex n cs).map fun p => (c :: p.1, p.2)
    else none

/-- One anchored attempt of `data-hash="([a-f0-9]{64})"`. -/
def matchDataHashAt (l : List Char) : Option (List Char) :=
  (matchLit ("data-hash=\"".toList) l).bind fun r1 =>
    (takeHex 64 r1).bind fun p =>
      match p.2 with
      | '"' :: _ => some p.1
      | _ => none

/-- Line 25: `re.search` of the published-hash pattern. -/
def searchDataHash : List Char → Option (List Char)
  | [] => none
  | c :: cs =>
    match matchDataHashAt (c :: cs) with
    | some h => some h
    | none => searchDataHash cs

/-- The result of `verify` (the pass-through filename component omitted):
published hash, computed hash, status string. -/
structure VerifyOutcome where
  published : Option String
  computed : Option String
  status : String
deriving DecidableEq

/-- Lines 13–32 of src/verify.py, with the external SHA-256 as `H`. -/
def verify (H : String → String) (content : String) : VerifyOutcome :=
  match searchArticle content.toList with
  | none => ⟨none, none, "No <article> tag found"⟩
  | some body =>
    let text := String.mk (normalizeText (stripTags body))
    let computed := H text
    match searchDataHash content.toList with
    | none => ⟨none, some computed, "No published hash found"⟩
    | some hs =>
      let published := String.mk hs
      ⟨some published, some computed,
       if computed = published then "VERIFIED" else "MISMATCH"⟩

/-! ### Helper lemmas about whitespace normalization -/

lemma collapseWsAux_true_ws_run (r t : List Char)
    (hr : ∀ c ∈ r, isWs c = true) :
    collapseWsAux true (r ++ t) = collapseWsAux true t := by
  induction r with
  | nil => rfl
  | cons c r ih =>
    have hc : isWs c = true := hr c (List.mem_cons_self c r)
    have hr' : ∀ x ∈ r, isWs x = true := fun x hx => hr x (List.mem_cons_of_mem c hx)
    simp [collapseWsAux, hc, ih hr']

lemma collapseWsAux_false_ws_run (r t : List Char) (hne : r ≠ [])
    (hr : ∀ c ∈ r, isWs c = true) :
    collapseWsAux false (r ++ t) = ' ' :: collapseWsAux true t := by
  cases r with
  | nil => exact absurd rfl hne
  | cons c r =>
    have hc : isWs c = true := hr c (List.mem_cons_self c r)
    have hr' : ∀ x ∈ r, isWs x = true := fun x hx => hr x (List.mem_cons_of_mem c hx)
    simp [collapseWsAux, hc, collapseWsAux_true_ws_run r t hr']

lemma collapseWs_ws_replace (a r r2 b : List Char) (f : Bool)
    (h1 : r ≠ []) (h2 : r2 ≠ [])
    (hw1 : ∀ c ∈ r, isWs c = true) (hw2 : ∀ c ∈ r2, isWs c = true) :
    collapseWsAux f (a ++ (r ++ b)) = collapseWsAux f (a ++ (r2 ++ b)) := by
  induction a generalizing f with
  | nil =>
    cases f with
    | true =>
      simp only [List.nil_append, collapseWsAux_true_ws_run r b hw1,
        collapseWsAux_true_ws_run r2 b hw2]
    | false =>
      simp only [List.nil_append, collapseWsAux_false_ws_run r b h1 hw1,
        collapseWsAux_false_ws_run r2 b h2 hw2]
  | cons c a ih =>
    by_cases hc : isWs c = true
    · cases f <;> simp [collapseWsAux, hc, ih true]
    · simp [collapseWsAux, hc, ih false]

lemma lstrip_cons_ws (c : Char) (l : List Char) (hc : isWs c = true) :
    lstrip (c :: l) = lstrip l := by
  simp [lstrip, List.dropWhile, hc]

lemma norm_true_false (l : List Char) :
    rstrip (lstrip (collapseWsAux true l)) = rstrip (lstrip (collapseWsAux false l)) := by
  cases l with
  | nil => rfl
  | cons c t =>
    by_cases hc : isWs c = true
    · have e1 : collapseWsAux true (c :: t) = collapseWsAux true t := by
        simp [collapseWsAux, hc]
      have e2 : collapseWsAux false (c :: t) = ' ' :: collapseWsAux true t := by
        simp [collapseWsAux, hc]
      rw [e1, e2, lstrip_cons_ws ' ' _ (by decide)]
    · have e1 : collapseWsAux true (c :: t) = c :: collapseWsAux false t := by
        simp [collapseWsAux, hc]
      have e2 : collapseWsAux false (c :: t) = c :: collapseWsAux false t := by
        simp [collapseWsAux, hc]
      rw [e1, e2]

lemma collapseWsAux_append_ws (s : List Char) (f : Bool) (r2 : List Char)
    (hw : ∀ c ∈ r2, isWs c = true) :
    collapseWsAux f (s ++ r2) = collapseWsAux f s ∨
    collapseWsAux f (s ++ r2) = collapseWsAux f s ++ [' '] := by
  induction s generalizing f with
  | nil =>
    cases hr2 : r2 with
    | nil => left; rfl
    | cons c r2' =>
      subst hr2
      cases f with
      | true =>
        left
        have := collapseWsAux_true_ws_run (c :: r2') [] hw
        simpa using this
      | false =>
        right
        have := collapseWsAux_false_ws_run (c :: r2') [] (by simp) hw
        simpa using this
  | cons c s ih =>
    by_cases hc : isWs c = true
    · cases f with
      | true =>
        have e : ∀ u, collapseWsAux true (c :: u) = collapseWsAux true u := by
          intro u; simp [collapseWsAux, hc]
        rw [List.cons_append, e, e]
        exact ih true
      | false =>
        have e : ∀ u, collapseWsAux false (c :: u) = ' ' :: collapseWsAux true u := by
          intro u; simp [collapseWsAux, hc]
        rw [List.cons_append, e, e]
        rcases ih true with h | h
        · left; rw [h]
        · right; rw [h]; rfl
    · have e : ∀ u, collapseWsAux false (c :: u) = c :: collapseWsAux false u := by
        intro u; simp [collapseWsAux, hc]
      have e' : ∀ u, collapseWsAux true (c :: u) = c :: collapseWsAux false u := by
        intro u; simp [collapseWsAux, hc]
      cases f with
      | true =>
        rw [List.cons_append, e', e']
        rcases ih false with h | h
        · left; rw [h]
        · right; rw [h]; rfl
      | false =>
        rw [List.cons_append, e, e]
        rcases ih false with h | h
        · left; rw [h]
        · right; rw [h]; rfl

lemma rstrip_append_ws (y : List Char) (c : Char) (hc : isWs c = true) :
    rstrip (y ++ [c]) = rstrip y := by
  simp [rstrip, List.reverse_append, List.dropWhile, hc]

lemma norm_trailing_space (x : List Char) :
    rstrip (lstrip (x ++ [' '])) = rstrip (lstrip x) := by
  induction x with
  | nil => rfl
  | cons c t ih =>
    by_cases hc : isWs c = true
    · rw [List.cons_append, lstrip_cons_ws c _ hc, lstrip_cons_ws c _ hc, ih]
    · have e : ∀ u, lstrip (c :: u) = c :: u := by
        intro u; simp [lstrip, List.dropWhile, hc]
      rw [List.cons_append, e, e, ← List.cons_append,
          rstrip_append_ws (c :: t) ' ' (by decide)]

lemma normalizeText_pad (s r r2 : List Char)
    (hw1 : ∀ c ∈ r, isWs c = true) (hw2 : ∀ c ∈ r2, isWs c = true) :
    normalizeText (r ++ s ++ r2) = normalizeText s := by
  have htrail : ∀ (u : List Char) (f : Bool),
      rstrip (lstrip (collapseWsAux f (u ++ r2))) =
        rstrip (lstrip (collapseWsAux f u)) := by
    intro u f
    rcases collapseWsAux_append_ws u f r2 hw2 with h | h
    · rw [h]
    · rw [h, norm_trailing_space]
  by_cases hre : r = []
  · subst hre
    simpa only [List.nil_append] using htrail s false
  · calc normalizeText ((r ++ s) ++ r2)
        = rstrip (lstrip (collapseWsAux false (r ++ (s ++ r2)))) := by
          rw [List.append_assoc]; rfl
      _ = rstrip (lstrip (' ' :: collapseWsAux true (s ++ r2))) := by
          rw [collapseWsAux_false_ws_run r _ hre hw1]
      _ = rstrip (lstrip (collapseWsAux true (s ++ r2))) := by
          rw [lstrip_cons_ws ' ' _ (by decide)]
      _ = rstrip (lstrip (collapseWsAux false (s ++ r2))) := norm_true_false _
      _ = rstrip (lstrip (collapseWsAux false s)) := htrail s false
      _ = normalizeText s := rfl

lemma normalizeText_ws_replace (a r r2 b : List Char) (h1 : r ≠ []) (h2 : r2 ≠ [])
    (hw1 : ∀ c ∈ r, isWs c = true) (hw2 : ∀ c ∈ r2, isWs c = true) :
    normalizeText (a ++ (r ++ b)) = normalizeText (a ++ (r2 ++ b)) := by
  simp only [normalizeText, collapseWs]
  rw [collapseWs_ws_replace a r r2 b false h1 h2 hw1 hw2]

lemma verify_computed (H : String → String) (c : String) (b : List Char)
    (h : searchArticle c.toList = some b) :
    (verify H c).computed = some (H (String.mk (normalizeText (stripTags b)))) := by
  simp only [verify]
  rw [h]
  rcases hd : searchDataHash c.toList with _ | hs <;> rfl

lemma verify_status_of_eq (H : String → String) (c1 c2 : String) (b1 b2 : List Char)
    (h1 : searchArticle c1.toList = some b1) (h2 : searchArticle c2.toList = some b2)
    (ht : normalizeText (stripTags b1) = normalizeText (stripTags b2))
    (hd : searchDataHash c1.toList = searchDataHash c2.toList) :
    (verify H c1).status = (verify H c2).status := by
  simp only [verify]
  rw [h1, h2]
  dsimp only
  rw [ht, hd]

/-! ### Claim C10 -/

/-- Content with an article body that contains a bare `<`. -/
def cexBase : String := "<article>a < b</article>"

/-- The same content with the tag `<i>` inserted inside the article. -/
def cexTag : String := "<article>a < b <i></article>"

/-- C10 counterexample: inserting the tag `<i>` inside the article changes
the text the verifier hashes — the stripping regex `<[^>]+>` eats from the
body's bare `<` through the inserted tag's `>` — so the computed hash is
not invariant under tag insertion inside the article. -/
theorem tag_insertion_changes_hash :
    (searchArticle cexBase.toList).isSome = true ∧
    (searchArticle cexTag.toList).isSome = true ∧
    (verify id cexBase).computed = some "a < b" ∧
    (verify id cexTag).computed = some "a" ∧
    (verify id cexBase).computed ≠ (verify id cexTag).computed := by
  refine ⟨rfl, rfl, rfl, rfl, by decide⟩

/-- C10 amended (the claim's whitespace half, and hash-extensionality in
the normalized text; the tag-insertion half is refuted by the
counterexample): the computed hash depends only on the article body's
tag-stripped, whitespace-normalized text — contents whose bodies normalize
identically give identical computed hashes, and identical statuses when
their published-hash searches agree; replacing any whitespace run of the
stripped text with a different non-empty run, or adding leading/trailing
whitespace to it, leaves the normalized text (hence the hash and status)
unchanged. -/
theorem hash_depends_only_on_normalized_text :
    (∀ (H : String → String) (c1 c2 : String) (b1 b2 : List Char),
        searchArticle c1.toList = some b1 → searchArticle c2.toList = some b2 →
        normalizeText (stripTags b1) = normalizeText (stripTags b2) →
        (verify H c1).computed = (verify H c2).computed ∧
        (searchDataHash c1.toList = searchDataHash c2.toList →
          (verify H c1).status = (verify H c2).status)) ∧
    (∀ (a r r2 b : List Char), r ≠ [] → r2 ≠ [] →
        (∀ ch ∈ r, isWs ch = true) → (∀ ch ∈ r2, isWs ch = true) →
        normalizeText (a ++ (r ++ b)) = normalizeText (a ++ (r2 ++ b))) ∧
    (∀ (s r r2 : List Char),
        (∀ ch ∈ r, isWs ch = true) → (∀ ch ∈ r2, isWs ch = true) →
        normalizeText (r ++ s ++ r2) = normalizeText s) := by
  refine ⟨?_, normalizeText_ws_replace, normalizeText_pad⟩
  intro H c1 c2 b1 b2 h1 h2 ht
  constructor
  · rw [verify_computed H c1 b1 h1, verify_computed H c2 b2 h2, ht]
  · intro hd
    exact verify_status_of_eq H c1 c2 b1 b2 h1 h2 ht hd

/-- C10 witness: replacing the single space in "x y" by two spaces leaves
the normalized text unchanged. -/
theorem hash_depends_only_on_normalized_text_witness :
    normalizeText (['x'] ++ ([' '] ++ ['y'])) =
      normalizeText (['x'] ++ ([' ', ' '] ++ ['y'])) :=
  hash_depends_only_on_normalized_text.2.1 ['x'] [' '] [' ', ' '] ['y']
    (by decide) (by decide) (by decide) (by decide)

end MufxSite
